import Mathlib

/-!
Verification development for the `battery-model` repository.

The file shallow-embeds the three core components of the repository:

* the single-shot secant solver `guess_drive_pot` together with
  `get_slope_intercept` (src/battery/diffusion_battery.py), embedded over `ℚ`
  (the Python code works on floats; all claims about it are algebraic, so they
  are stated over exact arithmetic) and instrumented with the number of
  evaluations of the underlying diffusion update that a call performs;
* the cycling state machine `TesterProgram.advance`
  (src/battery/tester_program.py), embedded as a fuel-indexed transition
  function on an explicit program state (the Python method recurses into
  itself with `increment_timesteps=False` on every phase change; the fuel
  models the recursion depth, `none` modelling a non-terminating recursion);
* the diffusion update `compute_charge_curve` and its derived quantities
  (src/battery/diffusion_battery.py), embedded over `ℝ` with the genuine
  Gaussian kernel (`Real.exp`/`Real.sqrt`), curves being lists of reals.
-/

/-! ### Python-level errors surfaced by the solver -/

inductive PyErr : Type
  | zeroDivision
  | assertionError
  deriving DecidableEq, Repr

/-- Embedding of `get_slope_intercept` (diffusion_battery.py lines 200-206):
raises `ZeroDivisionError` when the two x-coordinates coincide, otherwise
returns `(slope, intercept)` of the line through the two points. -/
def get_slope_intercept (pt1 pt2 : ℚ × ℚ) : Except PyErr (ℚ × ℚ) :=
  if pt1.1 - pt2.1 = 0 then
    Except.error PyErr.zeroDivision
  else
    let slope := (pt1.2 - pt2.2) / (pt1.1 - pt2.1)
    let intercept := pt1.2 - slope * pt1.1
    Except.ok (slope, intercept)

/-- Embedding of `DiffusionBattery.guess_drive_pot`
(diffusion_battery.py lines 152-197).

`f` stands for the `get_val_from_charge_curve` parameter (a function of the
drive potential and the charge curve: `compute_current` or `compute_ocp`) and
`fc` for the `get_val_from_charge_curve_and_drive_pot` parameter (the closure
maker `get_calc_current` / `get_calc_ocp`, taking the curve and then the drive
potential).  Each call of `f` or `fc` performs exactly one evaluation of the
underlying diffusion update `compute_charge_curve` in the Python code
(`compute_current` and `compute_ocp` each call it once), so the second
component of the result counts those evaluations:

* line 175 (`actual_val = ...`): one evaluation;
* line 184 (the `assert`): one further evaluation, only in the `else` branch;
* line 190 (`guess_val = ...`): one further evaluation.

A failing `assert` raises `AssertionError`; `get_slope_intercept` can raise
`ZeroDivisionError`; both propagate to the caller. -/
def guess_drive_pot (f : ℚ → List ℚ → ℚ) (fc : List ℚ → ℚ → ℚ)
    (charge_curve : List ℚ) (target_val : ℚ) : Except PyErr ℚ × ℕ :=
  let drive_pot := charge_curve.getD 0 0
  let actual_val := f drive_pot charge_curve
  if actual_val = target_val then
    (Except.ok drive_pot, 1)
  else
    if actual_val = fc charge_curve drive_pot then
      let guess := drive_pot + 1
      let guess_charge_y := charge_curve.set 0 guess
      let guess_val := f guess guess_charge_y
      match get_slope_intercept (actual_val, drive_pot) (guess_val, guess) with
      | Except.error e => (Except.error e, 3)
      | Except.ok si => (Except.ok (si.1 * target_val + si.2), 3)
    else
      (Except.error PyErr.assertionError, 2)

/-- Boolean test that an `Except` value is a success. -/
def isOkE {ε α : Type} : Except ε α → Bool
  | Except.ok _ => true
  | Except.error _ => false

/-! ### The cycling state machine -/

/-- The five phases of the CC/CV cycling program (the `step` strings of
tester_program.py). -/
inductive Step : Type
  | chargeCC
  | chargeCV
  | rest
  | dischargeCC
  | dischargeCV
  deriving DecidableEq, Repr, BEq

/-- The mutable attributes of `TesterProgram`. -/
structure ProgState : Type where
  timestep : ℕ
  timesteps_in_step : ℕ
  step : Step
  driver : ℚ
  deriving DecidableEq, Repr

/-- The configuration constants of config.py that `TesterProgram.advance`
reads. -/
structure Config : Type where
  charge_cc : ℚ
  charge_cv : ℚ
  discharge_cv : ℚ
  zero_current_threshold : ℚ
  rest_timesteps : ℕ
  deriving DecidableEq, Repr

/-- The shipped values of config.py: `CHARGE_CC = 15`, `CHARGE_CV = 4`,
`DISCHARGE_CV = 0`, `ZERO_CURRENT_THRESHOLD = 1`, `REST_TIMESTEPS = 20`. -/
def shippedConfig : Config :=
  { charge_cc := 15, charge_cv := 4, discharge_cv := 0,
    zero_current_threshold := 1, rest_timesteps := 20 }

/-- The initial `TesterProgram` state: `timestep = 1`, `timesteps_in_step = 1`,
`step = "CHARGE_CC"`, `driver = DPOT_INIT = 0`. -/
def initProgState : ProgState :=
  { timestep := 1, timesteps_in_step := 1, step := Step.chargeCC, driver := 0 }

/-- Embedding of `TesterProgram.advance` (tester_program.py lines 20-90).

`d1` stands for `battery.get_driver_for_target_current` and `d2` for
`battery.get_driver_for_target_ocp`; the battery is not mutated during the
call, so they are fixed functions of the target, and `pot`
(`battery.ocp`) and `current` are fixed inputs.  The Python method re-invokes
itself with `increment_timesteps=False` whenever a phase's exit condition
fires; the `fuel` argument bounds that recursion depth, with `none` modelling
a recursion that would not terminate.  As in the source, the local
`timesteps_in_step` used by the `REST` check is read before the increment, and
the phase dispatch uses the phase read at entry. -/
def advanceAux (cfg : Config) (d1 d2 : ℚ → ℚ) :
    ℕ → ProgState → ℚ → ℚ → Bool → Option ProgState
  | 0, _, _, _, _ => none
  | fuel + 1, s, pot, current, inc =>
    let tis := s.timesteps_in_step
    let t := if inc then
        { s with timestep := s.timestep + 1,
                 timesteps_in_step := s.timesteps_in_step + 1 }
      else s
    match s.step with
    | Step.chargeCC =>
      if cfg.charge_cv ≤ pot then
        advanceAux cfg d1 d2 fuel { t with step := Step.chargeCV } pot current false
      else
        some { t with driver := d1 cfg.charge_cc }
    | Step.chargeCV =>
      if current < cfg.zero_current_threshold then
        advanceAux cfg d1 d2 fuel { t with step := Step.rest } pot current false
      else
        some { t with driver := d2 cfg.charge_cv }
    | Step.rest =>
      if cfg.rest_timesteps < tis then
        advanceAux cfg d1 d2 fuel { t with step := Step.dischargeCC } pot current false
      else
        some { t with driver := d1 0 }
    | Step.dischargeCC =>
      if pot ≤ cfg.discharge_cv then
        advanceAux cfg d1 d2 fuel { t with step := Step.dischargeCV } pot current false
      else
        some { t with driver := d1 (-cfg.charge_cc) }
    | Step.dischargeCV =>
      if -cfg.zero_current_threshold < current then
        advanceAux cfg d1 d2 fuel { t with step := Step.chargeCC } pot current false
      else
        some { t with driver := d2 cfg.discharge_cv }

/-- Input schedule of the concrete counterexample execution for the REST-phase
duration claim: four CHARGE_CC-holding calls, then a call that crosses into
CHARGE_CV and REST, then calls holding potential 2 and current 0. -/
def c2inp (n : ℕ) : ℚ × ℚ :=
  if n < 4 then (0, 15) else if n = 4 then (4, 0) else (2, 0)

/-- The states of that execution: `c2run n` is the program state after `n`
external (timestep-consuming) calls of `advance`, starting from the initial
state, with the drive-potential solver stubbed to the constant 0 (it does not
influence phase logic). -/
def c2run : ℕ → ProgState
  | 0 => initProgState
  | n + 1 =>
    (advanceAux shippedConfig (fun _ => 0) (fun _ => 0) 5 (c2run n)
        (c2inp n).1 (c2inp n).2 true).getD (c2run n)

/-- Decidable check that the counterexample execution sits in `REST` after
each of the consumed calls 5 through 20. -/
def c2restAll : Bool :=
  (List.range 16).all (fun i => (c2run (5 + i)).step == Step.rest)

/-! ### The diffusion battery model -/

/-- Embedding of `np.arange(start, stop, 1.0)` over exact rationals: the
values `start, start + 1, ...` with `⌈stop - start⌉` entries
(numpy's element count for unit step). -/
def arange (start stop : ℚ) : List ℚ :=
  (List.range (⌈stop - start⌉).toNat).map (fun k : ℕ => start + (k : ℚ))

/-- The kernel sample grid of `compute_charge_curve` (diffusion_battery.py
line 84): `np.arange(-width * sigma, width * sigma + 1, 1)` with `width = 3`
and `sigma = cathode_width / 10`. -/
def gx (W : ℚ) : List ℚ := arange (-(3 * (W / 10))) (3 * (W / 10) + 1)

/-- The unnormalized Gaussian kernel of `compute_charge_curve` (line 86):
`np.exp(-(gx ** 2) / (2 * sigma ** 2)) / math.sqrt(2 * math.pi * sigma ** 2)`. -/
noncomputable def gaussianRaw (W : ℚ) : List ℝ :=
  (gx W).map (fun x : ℚ => Real.exp (-((x : ℝ) ^ 2) / (2 * ((W : ℝ) / 10) ^ 2)) /
    Real.sqrt (2 * Real.pi * ((W : ℝ) / 10) ^ 2))

/-- The normalized Gaussian kernel of `compute_charge_curve` (line 88):
`gaussian / np.sum(gaussian)`. -/
noncomputable def gaussian (W : ℚ) : List ℝ :=
  (gaussianRaw W).map (fun v => v / (gaussianRaw W).sum)

/-- Full discrete convolution (`np.convolve(a, v)` in its default "full"
mode): entry `n` is `∑ j, a[n - j] * v[j]`, out-of-range reads contributing
zero. -/
noncomputable def fullConv (a v : List ℝ) : List ℝ :=
  (List.range (a.length + v.length - 1)).map (fun n =>
    ∑ j in Finset.range v.length, if j ≤ n then a.getD (n - j) 0 * v.getD j 0 else 0)

/-- `np.convolve(a, v, mode="same")` for `v.length ≤ a.length` (the regime in
which `compute_charge_curve` calls it): the middle `a.length` entries of the
full convolution, starting at offset `(v.length - 1) / 2`. -/
noncomputable def sameConv (a v : List ℝ) : List ℝ :=
  ((fullConv a v).drop ((v.length - 1) / 2)).take a.length

/-- Embedding of `DiffusionBattery.compute_charge_curve`
(diffusion_battery.py lines 58-98): copy the curve, clamp index 0 to the
driving potential, build the Gaussian kernel, concatenate a zero run and a
`y[0]` run of kernel length, the curve and its mirror, convolve in same mode,
then take the Python slice `convolution[pad_len:-len(y)]` with
`pad_len = 2 * len(gaussian)`. -/
noncomputable def compute_charge_curve (W : ℚ) (drive_pot : ℝ) (charge_curve : List ℝ) :
    List ℝ :=
  let y := charge_curve.set 0 drive_pot
  let g := gaussian W
  let zeros := List.replicate g.length 0
  let prepend := List.replicate g.length (y.getD 0 0)
  let base := zeros ++ prepend ++ y ++ y.reverse
  let pad_len := 2 * g.length
  let convolution := sameConv base g
  (convolution.drop pad_len).take (convolution.length - pad_len - y.length)

/-- Embedding of `DiffusionBattery.compute_current` (lines 100-102). -/
noncomputable def compute_current (W : ℚ) (drive_pot : ℝ) (charge_curve : List ℝ) : ℝ :=
  (compute_charge_curve W drive_pot charge_curve).sum - charge_curve.sum

/-- Embedding of `DiffusionBattery.compute_ocp` (lines 104-106): the value at
index 0 of the updated curve (`[0]` in the source). -/
noncomputable def compute_ocp (W : ℚ) (drive_pot : ℝ) (charge_curve : List ℝ) : ℝ :=
  (compute_charge_curve W drive_pot charge_curve).getD 0 0

/-- Embedding of the closure returned by `DiffusionBattery.get_calc_current`
(lines 108-117): copy the curve, set index 0 to the drive potential, and
evaluate `compute_current`. -/
noncomputable def get_calc_current (W : ℚ) (charge_curve : List ℝ) : ℝ → ℝ :=
  fun drive_pot => compute_current W drive_pot (charge_curve.set 0 drive_pot)

/-- Embedding of the closure returned by `DiffusionBattery.get_calc_ocp`
(lines 119-128). -/
noncomputable def get_calc_ocp (W : ℚ) (charge_curve : List ℝ) : ℝ → ℝ :=
  fun drive_pot => compute_ocp W drive_pot (charge_curve.set 0 drive_pot)

/-- The mutable state of a `DiffusionBattery` (battery.py lines 6-23 plus the
`cathode_width` added in diffusion_battery.py line 26). -/
structure DiffusionBattery : Type where
  soc : ℝ
  ocp : ℝ
  charge_curve : List ℝ
  cathode_width : ℚ

/-- Embedding of `DiffusionBattery.apply_potential` (diffusion_battery.py
lines 28-56): compute the new curve, store it, store `ocp` as the new curve's
index-1 value and `soc` as its sum, and return `(ocp, soc - prior_soc)`.
The result is the updated battery paired with the returned pair. -/
noncomputable def apply_potential (b : DiffusionBattery) (potential : ℝ) :
    DiffusionBattery × ℝ × ℝ :=
  let new_charge_curve := compute_charge_curve b.cathode_width potential b.charge_curve
  let prior_soc := b.soc
  let b2 := { b with charge_curve := new_charge_curve,
                     ocp := new_charge_curve.getD 1 0,
                     soc := new_charge_curve.sum }
  (b2, b2.ocp, b2.soc - prior_soc)

/-! ### Helper lemmas -/

lemma ceil_toNat_eval (q : ℚ) (n : ℕ) (h1 : (n : ℚ) - 1 < q) (h2 : q ≤ n) :
    (⌈q⌉).toNat = n := by
  have h : ⌈q⌉ = (n : ℤ) := by
    rw [Int.ceil_eq_iff]
    exact ⟨by push_cast; linarith, by exact_mod_cast h2⟩
  rw [h, Int.toNat_natCast]

lemma gaussian_length (W : ℚ) : (gaussian W).length = (gx W).length := by
  rw [gaussian, List.length_map, gaussianRaw, List.length_map]

lemma gaussian_length_pos (W : ℚ) (hW : 0 < W) : 1 ≤ (gaussian W).length := by
  rw [gaussian_length, gx, arange, List.length_map, List.length_range]
  have h1 : (0 : ℚ) < 3 * (W / 10) + 1 - -(3 * (W / 10)) := by nlinarith
  have h2 : 0 < ⌈3 * (W / 10) + 1 - -(3 * (W / 10))⌉ := Int.ceil_pos.mpr h1
  omega

lemma gaussian_len_one : (gaussian 1).length = 2 := by
  rw [gaussian_length, gx, arange, List.length_map, List.length_range]
  exact ceil_toNat_eval _ 2 (by norm_num) (by norm_num)

lemma gaussianRaw_pos (W : ℚ) (hW : 0 < W) : ∀ x ∈ gaussianRaw W, 0 < x := by
  intro x hx
  rw [gaussianRaw] at hx
  obtain ⟨q, -, rfl⟩ := List.mem_map.mp hx
  have h1 : (0 : ℝ) < (W : ℝ) := by exact_mod_cast hW
  have h2 : (0 : ℝ) < 2 * Real.pi * ((W : ℝ) / 10) ^ 2 := by positivity
  exact div_pos (Real.exp_pos _) (Real.sqrt_pos.mpr h2)

lemma gaussian_pos (W : ℚ) (hW : 0 < W) (hne : gaussianRaw W ≠ []) :
    ∀ x ∈ gaussian W, 0 < x := by
  intro x hx
  rw [gaussian] at hx
  obtain ⟨v, hv, rfl⟩ := List.mem_map.mp hx
  have hsum : 0 < (gaussianRaw W).sum :=
    List.sum_pos _ (gaussianRaw_pos W hW) hne
  exact div_pos (gaussianRaw_pos W hW v hv) hsum

lemma gaussianRaw_one_ne_nil : gaussianRaw 1 ≠ [] := by
  intro h
  have hlen := congrArg List.length h
  rw [List.length_nil] at hlen
  have h2 : (gaussianRaw 1).length = 2 := by
    rw [gaussianRaw, List.length_map, gx, arange, List.length_map, List.length_range]
    exact ceil_toNat_eval _ 2 (by norm_num) (by norm_num)
  omega

lemma length_fullConv (a v : List ℝ) :
    (fullConv a v).length = a.length + v.length - 1 := by
  simp [fullConv]

lemma length_sameConv (a v : List ℝ) (hv : 1 ≤ v.length) :
    (sameConv a v).length = a.length := by
  simp only [sameConv, List.length_take, List.length_drop, length_fullConv]
  omega

lemma getD_set_zero (c : List ℝ) (p : ℝ) (hc : 1 ≤ c.length) :
    (c.set 0 p).getD 0 0 = p := by
  cases c with
  | nil => simp at hc
  | cons a t => rfl

lemma set_getD_self (c : List ℝ) : c.set 0 (c.getD 0 0) = c := by
  cases c with
  | nil => rfl
  | cons a t => rfl

lemma gdp_hit (f : ℚ → List ℚ → ℚ) (fc : List ℚ → ℚ → ℚ) (curve : List ℚ) (target : ℚ)
    (h1 : f (curve.getD 0 0) curve = target) :
    guess_drive_pot f fc curve target = (Except.ok (curve.getD 0 0), 1) := by
  simp only [guess_drive_pot]
  rw [if_pos h1]

lemma gdp_zero_div (f : ℚ → List ℚ → ℚ) (fc : List ℚ → ℚ → ℚ) (curve : List ℚ)
    (target : ℚ)
    (hcoh : f (curve.getD 0 0) curve = fc curve (curve.getD 0 0))
    (h1 : ¬ f (curve.getD 0 0) curve = target)
    (h2 : f (curve.getD 0 0) curve -
      f (curve.getD 0 0 + 1) (curve.set 0 (curve.getD 0 0 + 1)) = 0) :
    guess_drive_pot f fc curve target = (Except.error PyErr.zeroDivision, 3) := by
  simp only [guess_drive_pot, get_slope_intercept]
  rw [if_neg h1, if_pos hcoh, if_pos h2]

lemma gdp_secant (f : ℚ → List ℚ → ℚ) (fc : List ℚ → ℚ → ℚ) (curve : List ℚ)
    (target : ℚ)
    (hcoh : f (curve.getD 0 0) curve = fc curve (curve.getD 0 0))
    (h1 : ¬ f (curve.getD 0 0) curve = target)
    (h2 : ¬ f (curve.getD 0 0) curve -
      f (curve.getD 0 0 + 1) (curve.set 0 (curve.getD 0 0 + 1)) = 0) :
    guess_drive_pot f fc curve target =
      (Except.ok
        ((curve.getD 0 0 - (curve.getD 0 0 + 1)) /
            (f (curve.getD 0 0) curve -
              f (curve.getD 0 0 + 1) (curve.set 0 (curve.getD 0 0 + 1))) * target +
          (curve.getD 0 0 -
            (curve.getD 0 0 - (curve.getD 0 0 + 1)) /
                (f (curve.getD 0 0) curve -
                  f (curve.getD 0 0 + 1) (curve.set 0 (curve.getD 0 0 + 1))) *
              f (curve.getD 0 0) curve)), 3) := by
  simp only [guess_drive_pot, get_slope_intercept]
  rw [if_neg h1, if_pos hcoh, if_neg h2]

lemma ccc_one : compute_charge_curve 1 0 [0, 1] = [0, (gaussian 1).getD 0 0] := by
  have hy : (([0, 1] : List ℝ).set 0 0) = [0, 1] := rfl
  have hgd : (([0, 1] : List ℝ)).getD 0 0 = 0 := rfl
  simp only [compute_charge_curve, hy, hgd, gaussian_len_one]
  have hrep : List.replicate 2 (0 : ℝ) = [0, 0] := rfl
  have hrev : ([0, 1] : List ℝ).reverse = [1, 0] := rfl
  rw [hrep, hrev]
  have hbase : ([0, 0] : List ℝ) ++ [0, 0] ++ [0, 1] ++ [1, 0] =
      [0, 0, 0, 0, 0, 1, 1, 0] := rfl
  rw [hbase]
  rw [sameConv, gaussian_len_one]
  rw [fullConv, gaussian_len_one]
  have hlen8 : ([0, 0, 0, 0, 0, 1, 1, 0] : List ℝ).length = 8 := rfl
  rw [hlen8]
  have h9 : (8 + 2 - 1 : ℕ) = 9 := rfl
  rw [h9]
  have hr9 : List.range 9 = [0, 1, 2, 3, 4, 5, 6, 7, 8] := rfl
  rw [hr9]
  simp only [List.map_cons, List.map_nil]
  have hd0 : ((2 - 1) / 2 : ℕ) = 0 := rfl
  rw [hd0]
  simp only [List.drop_zero, List.take_succ_cons, List.take_zero]
  simp only [List.length_cons, List.length_nil]
  norm_num
  constructor
  · simp [Finset.sum_range_succ]
  · simp [Finset.sum_range_succ]

/-! ### The claims -/

/-- Claim C1 (code bug): the claim states that `compute_ocp` returns the value
at index 1 of the updated curve, as `apply_potential` (which defines
`ocp = new_charge_curve[1]`) and the spec's ocp definition do; the source of
`compute_ocp` instead reads index 0.  At the concrete failing input
`cathode_width = 1`, `drive_pot = 0`, `charge_curve = [0, 1]` the code
returns the updated curve's index-0 value, which differs from its index-1
value, so the two conventions are not interchangeable: the first conjunct
evaluates what the code computes, the second shows it differs from the
claimed value. -/
theorem claim_C1_code_bug :
    compute_ocp 1 0 [0, 1] = (compute_charge_curve 1 0 [0, 1]).getD 0 0 ∧
    compute_ocp 1 0 [0, 1] ≠ (compute_charge_curve 1 0 [0, 1]).getD 1 0 := by
  constructor
  · rfl
  · rw [compute_ocp, ccc_one]
    have h0 : (0 : ℕ) < (gaussian 1).length := by rw [gaussian_len_one]; norm_num
    have hmem : (gaussian 1).getD 0 0 ∈ gaussian 1 := by
      rw [List.getD_eq_getElem _ _ h0]
      exact List.getElem_mem h0
    have hpos : 0 < (gaussian 1).getD 0 0 :=
      gaussian_pos 1 (by norm_num) gaussianRaw_one_ne_nil _ hmem
    simpa using hpos.ne

/-- Claim C2, counterexample: an execution of the cycling state machine from
the initial program state that enters `REST` and leaves it for
`DISCHARGE_CC` after fewer than 20 consumed timesteps.  The schedule `c2inp`
holds the machine in `CHARGE_CC` for four calls, so `REST` is entered during
consumed call 5 (global timestep 6) with the never-reset per-phase counter
already at 6; the `REST` exit fires as soon as that counter exceeds 20, i.e.
during consumed call 21 (global timestep 22) — only 16 consumed timesteps
after entering `REST`, refuting "at least 20". -/
theorem claim_C2_counterexample :
    (c2run 4).step = Step.chargeCC ∧
    (c2run 5).step = Step.rest ∧
    c2restAll = true ∧
    (c2run 21).step = Step.dischargeCC ∧
    (c2run 5).timestep = 6 ∧
    (c2run 21).timestep = 22 := by
  decide

/-- Claim C2, amended: with `restTimesteps = 20`, a timestep-consuming call
made in `REST` leaves `REST` for `DISCHARGE_CC` exactly when the per-phase
counter — which is never reset on phase entry and therefore equals the global
call count — already exceeds 20 at the start of the call; otherwise the
machine stays in `REST`.  Hence `REST` lasts `max 0 (21 - t)` consumed
timesteps when entered with counter value `t`: at most 19 (the counter is at
least 2 at any entry) and possibly 0, not "at least 20". -/
theorem claim_C2_amended (d1 d2 : ℚ → ℚ) (s : ProgState) (pot curr : ℚ)
    (hs : s.step = Step.rest) :
    (s.timesteps_in_step ≤ 20 →
      advanceAux shippedConfig d1 d2 5 s pot curr true =
        some { s with timestep := s.timestep + 1,
                      timesteps_in_step := s.timesteps_in_step + 1, driver := d1 0 }) ∧
    (20 < s.timesteps_in_step → shippedConfig.discharge_cv < pot →
      advanceAux shippedConfig d1 d2 5 s pot curr true =
        some { s with timestep := s.timestep + 1,
                      timesteps_in_step := s.timesteps_in_step + 1,
                      step := Step.dischargeCC,
                      driver := d1 (-shippedConfig.charge_cc) }) := by
  simp only [shippedConfig] at *
  constructor
  · intro hk
    simp only [advanceAux, hs]
    split_ifs <;>
      first
        | (exfalso; first | assumption | omega | linarith)
        | simp
  · intro hk hpot
    simp only [advanceAux, hs]
    split_ifs <;>
      first
        | (exfalso; first | assumption | omega | linarith)
        | simp

/-- Claim C2, witness for the amended theorem: a `REST` state whose counter is
already 50 leaves `REST` for `DISCHARGE_CC` within a single consumed call. -/
theorem claim_C2_amended_witness :
    (ProgState.mk 50 50 Step.rest 0).step = Step.rest ∧
    advanceAux shippedConfig (fun _ => 0) (fun _ => 0) 5
        (ProgState.mk 50 50 Step.rest 0) 2 0 true =
      some (ProgState.mk 51 51 Step.dischargeCC 0) :=
  ⟨rfl, (claim_C2_amended (fun _ => 0) (fun _ => 0)
    (ProgState.mk 50 50 Step.rest 0) 2 0 rfl).2 (by norm_num)
    (by rw [shippedConfig]; norm_num)⟩

/-- Claim C3, counterexample: `guess_drive_pot` does not perform exactly two
evaluations of the diffusion update regardless of branch.  With the identity
observation stub, the secant branch (target 5) performs three evaluations
(both sample points plus the `assert` re-evaluation) and the no-adjustment
branch (target 0) performs one. -/
theorem claim_C3_counterexample :
    (guess_drive_pot (fun p _ => p) (fun _ p => p) [0] 5).2 ≠ 2 ∧
    (guess_drive_pot (fun p _ => p) (fun _ p => p) [0] 0).2 ≠ 2 := by
  constructor <;>
    · simp only [guess_drive_pot, get_slope_intercept]
      norm_num

/-- Claim C3, amended: a call of `guess_drive_pot` whose two observation
functions are coherent (the closure reproduces the direct observation at the
first sample point, which holds for the battery's `compute_current` /
`get_calc_current` and `compute_ocp` / `get_calc_ocp` pairs) performs exactly
one evaluation of the underlying diffusion update when the first observation
already equals the target, and exactly three otherwise — never exactly
two. -/
theorem claim_C3_amended (f : ℚ → List ℚ → ℚ) (fc : List ℚ → ℚ → ℚ)
    (curve : List ℚ) (target : ℚ)
    (hcoh : f (curve.getD 0 0) curve = fc curve (curve.getD 0 0)) :
    (guess_drive_pot f fc curve target).2 =
      if f (curve.getD 0 0) curve = target then 1 else 3 := by
  by_cases h1 : f (curve.getD 0 0) curve = target
  · rw [gdp_hit f fc curve target h1, if_pos h1]
  · rw [if_neg h1]
    by_cases h2 : f (curve.getD 0 0) curve -
        f (curve.getD 0 0 + 1) (curve.set 0 (curve.getD 0 0 + 1)) = 0
    · rw [gdp_zero_div f fc curve target hcoh h1 h2]
    · rw [gdp_secant f fc curve target hcoh h1 h2]

/-- Claim C3, witness: the identity observation stub is coherent, and a call
missing its target performs three update evaluations. -/
theorem claim_C3_amended_witness :
    (fun (p : ℚ) (_ : List ℚ) => p) (([0] : List ℚ).getD 0 0) [0] =
      (fun (_ : List ℚ) (p : ℚ) => p) [0] (([0] : List ℚ).getD 0 0) ∧
    (guess_drive_pot (fun p _ => p) (fun _ p => p) [0] 5).2 =
      if (fun (p : ℚ) (_ : List ℚ) => p) (([0] : List ℚ).getD 0 0) [0] = 5
        then 1 else 3 :=
  ⟨rfl, claim_C3_amended (fun p _ => p) (fun _ p => p) [0] 5 rfl⟩

/-- Claim C4: for a positive cathode width, a curve of length at least 1 and
any driving potential, `compute_charge_curve` equals the stated pipeline —
clamp index 0 to the driving potential, concatenate a zero run of kernel
length, a run of the driving potential of kernel length, the working curve
and its mirror, convolve in same-length mode, drop the first
`2 * kernelSize` samples and keep the next `N` (equivalently drop the last
`N`) — and in particular the output has exactly the input's length.  The
embedding is a pure function, so the input curve is left unmodified. -/
theorem claim_C4_pipeline (W : ℚ) (p : ℝ) (c : List ℝ) (hW : 0 < W)
    (hc : 1 ≤ c.length) :
    compute_charge_curve W p c =
      ((sameConv (List.replicate (gaussian W).length 0 ++
          List.replicate (gaussian W).length p ++
          c.set 0 p ++ (c.set 0 p).reverse) (gaussian W)).drop
        (2 * (gaussian W).length)).take c.length ∧
    (compute_charge_curve W p c).length = c.length := by
  have hK := gaussian_length_pos W hW
  constructor
  · simp only [compute_charge_curve, getD_set_zero c p hc]
    congr 1
    rw [length_sameConv _ _ hK]
    simp only [List.length_append, List.length_replicate, List.length_set,
      List.length_reverse]
    omega
  · simp only [compute_charge_curve, List.length_take, List.length_drop]
    rw [length_sameConv _ _ hK]
    simp only [List.length_append, List.length_replicate, List.length_set,
      List.length_reverse]
    omega

/-- Claim C4, witness: the update at width 1 on the two-point curve `[0, 1]`
preserves the length. -/
theorem claim_C4_witness :
    (0 : ℚ) < 1 ∧ 1 ≤ ([0, 1] : List ℝ).length ∧
    (compute_charge_curve 1 0 [0, 1]).length = ([0, 1] : List ℝ).length :=
  ⟨by norm_num, by simp,
    (claim_C4_pipeline 1 0 [0, 1] (by norm_num) (by simp)).2⟩

/-- Claim C5: for a coherent observation pair (as supplied by the battery's
drivers), `guess_drive_pot` fails with `ZeroDivisionError` if and only if the
two sampled observations coincide (`v0 = v1`) while `v0` differs from the
target; the error is surfaced as an error value, and when `v0 ≠ v1` the call
returns a numeric result and raises no error. -/
theorem claim_C5_zero_div (f : ℚ → List ℚ → ℚ) (fc : List ℚ → ℚ → ℚ)
    (curve : List ℚ) (target : ℚ)
    (hcoh : f (curve.getD 0 0) curve = fc curve (curve.getD 0 0)) :
    ((guess_drive_pot f fc curve target).1 = Except.error PyErr.zeroDivision ↔
      (f (curve.getD 0 0) curve =
          f (curve.getD 0 0 + 1) (curve.set 0 (curve.getD 0 0 + 1)) ∧
        f (curve.getD 0 0) curve ≠ target)) ∧
    (f (curve.getD 0 0) curve ≠
        f (curve.getD 0 0 + 1) (curve.set 0 (curve.getD 0 0 + 1)) →
      isOkE (guess_drive_pot f fc curve target).1 = true) := by
  by_cases h1 : f (curve.getD 0 0) curve = target
  · rw [gdp_hit f fc curve target h1]
    constructor
    · constructor
      · intro hx; exact absurd hx (by simp)
      · rintro ⟨-, hne⟩; exact absurd h1 hne
    · intro _; rfl
  · by_cases h2 : f (curve.getD 0 0) curve -
        f (curve.getD 0 0 + 1) (curve.set 0 (curve.getD 0 0 + 1)) = 0
    · rw [gdp_zero_div f fc curve target hcoh h1 h2]
      constructor
      · constructor
        · intro _; exact ⟨by linarith, h1⟩
        · intro _; rfl
      · intro hne; exact absurd h2 (fun hh => hne (by linarith))
    · rw [gdp_secant f fc curve target hcoh h1 h2]
      constructor
      · constructor
        · intro hx; exact absurd hx (by simp)
        · rintro ⟨heq, -⟩; exact absurd (by linarith) h2
      · intro _; rfl

/-- Claim C5, witness: a constant observation stub that misses its target
triggers the `ZeroDivisionError` branch. -/
theorem claim_C5_witness :
    (fun (_ : ℚ) (_ : List ℚ) => (0 : ℚ)) (([0] : List ℚ).getD 0 0) [0] =
      (fun (_ : List ℚ) (_ : ℚ) => (0 : ℚ)) [0] (([0] : List ℚ).getD 0 0) ∧
    (guess_drive_pot (fun _ _ => 0) (fun _ _ => 0) [0] 1).1 =
      Except.error PyErr.zeroDivision :=
  ⟨rfl, ((claim_C5_zero_div (fun _ _ => 0) (fun _ _ => 0) [0] 1 rfl).1).mpr
    ⟨rfl, by norm_num⟩⟩

/-- Claim C6: for an exactly linear observation stub `f p = a * p + b` with
`a ≠ 0`, `guess_drive_pot` returns the exact preimage of the target — both in
the no-adjustment branch and in the secant branch — so the returned driving
potential `p` satisfies `f p = target` exactly. -/
theorem claim_C6_linear (a b target : ℚ) (curve : List ℚ) (ha : a ≠ 0) :
    (guess_drive_pot (fun p _ => a * p + b) (fun _ p => a * p + b) curve target).1 =
      Except.ok ((target - b) / a) ∧
    a * ((target - b) / a) + b = target := by
  constructor
  · by_cases h1 : (fun (p : ℚ) (_ : List ℚ) => a * p + b) (curve.getD 0 0) curve = target
    · rw [gdp_hit _ _ curve target h1]
      simp only at h1 ⊢
      set q := curve.getD 0 0 with hq
      have hval : q = (target - b) / a := by
        rw [eq_div_iff ha]
        linear_combination h1
      rw [hval]
    · have h2 : ¬ ((fun (p : ℚ) (_ : List ℚ) => a * p + b) (curve.getD 0 0) curve -
          (fun (p : ℚ) (_ : List ℚ) => a * p + b) (curve.getD 0 0 + 1)
            (curve.set 0 (curve.getD 0 0 + 1)) = 0) := by
        simp only
        intro hh
        exact ha (by linarith)
      rw [gdp_secant _ _ curve target rfl h1 h2]
      simp only
      set q := curve.getD 0 0 with hq
      have e1 : (a * q + b) - (a * (q + 1) + b) = -a := by ring
      rw [e1]
      have e2 : q - (q + 1) = -(1 : ℚ) := by ring
      rw [e2]
      have e3 : (-1 : ℚ) / -a = 1 / a := by rw [neg_div_neg_eq]
      rw [e3]
      congr 1
      field_simp
      ring
  · field_simp

/-- Claim C6, witness: solving with `f p = 2 * p + 1` for target 7 from the
curve `[3]` yields the exact preimage 3, and `f 3 = 7`. -/
theorem claim_C6_witness :
    (2 : ℚ) ≠ 0 ∧
    (guess_drive_pot (fun p _ => 2 * p + 1) (fun _ p => 2 * p + 1) [3] 7).1 =
      Except.ok ((7 - 1) / 2) ∧
    (2 : ℚ) * ((7 - 1) / 2) + 1 = 7 :=
  ⟨by norm_num, (claim_C6_linear 2 1 7 [3] (by norm_num)).1,
    (claim_C6_linear 2 1 7 [3] (by norm_num)).2⟩

/-- Claim C7, counterexample: the kernel is not odd-length and symmetric for
every cathode width.  At width 5 (`sigma = 1/2`) the sample grid
`arange(-3/2, 5/2, 1) = [-3/2, -1/2, 1/2, 3/2]` has four entries, so the
kernel has an even number of samples. -/
theorem claim_C7_counterexample :
    (gaussian 5).length = 4 ∧ ¬ Odd ((gaussian 5).length) := by
  have h : (gaussian 5).length = 4 := by
    rw [gaussian_length, gx, arange, List.length_map, List.length_range]
    exact ceil_toNat_eval _ 4 (by norm_num) (by norm_num)
  exact ⟨h, by rw [h]; decide⟩

/-- Claim C7, amended: for a cathode width that is a positive multiple of 10
(so `sigma = W / 10` is a positive integer), the kernel sample grid is the
unit-spaced symmetric range `-3 * sigma, ..., 3 * sigma`, the kernel has the
odd number `6 * sigma + 1` of samples, and the grid is perfectly symmetric
about zero (reversing it negates it, i.e. sample points come in
plus/minus pairs).  For other widths the grid can have an even number of
samples or be asymmetric. -/
theorem claim_C7_kernel (m : ℕ) (hm : 1 ≤ m) :
    gx (10 * (m : ℚ)) =
      (List.range (6 * m + 1)).map (fun k : ℕ => -(3 * (m : ℚ)) + (k : ℚ)) ∧
    (gaussian (10 * (m : ℚ))).length = 6 * m + 1 ∧
    Odd ((gaussian (10 * (m : ℚ))).length) ∧
    (gx (10 * (m : ℚ))).reverse = (gx (10 * (m : ℚ))).map (fun x => -x) := by
  have hceil : ⌈3 * (10 * (m : ℚ) / 10) + 1 - -(3 * (10 * (m : ℚ) / 10))⌉ =
      ((6 * m + 1 : ℕ) : ℤ) := by
    have harg : 3 * (10 * (m : ℚ) / 10) + 1 - -(3 * (10 * (m : ℚ) / 10)) =
        ((6 * m + 1 : ℕ) : ℚ) := by push_cast; ring
    rw [harg, Int.ceil_natCast]
  have hdiv : 10 * (m : ℚ) / 10 = (m : ℚ) := by ring
  have hgx : gx (10 * (m : ℚ)) =
      (List.range (6 * m + 1)).map (fun k : ℕ => -(3 * (m : ℚ)) + (k : ℚ)) := by
    apply List.ext_getElem
    · rw [gx, arange, List.length_map, List.length_range, hceil, Int.toNat_natCast,
        List.length_map, List.length_range]
    · intro i h1 h2
      simp only [gx, arange, List.getElem_map, List.getElem_range]
      rw [hdiv]
  have hlen : (gaussian (10 * (m : ℚ))).length = 6 * m + 1 := by
    rw [gaussian_length, hgx, List.length_map, List.length_range]
  refine ⟨hgx, hlen, ?_, ?_⟩
  · rw [hlen]
    exact ⟨3 * m, by ring⟩
  · rw [hgx]
    apply List.ext_getElem
    · simp only [List.length_reverse, List.length_map, List.length_range]
    · intro i h1 h2
      rw [List.getElem_reverse]
      simp only [List.getElem_map, List.getElem_range, List.length_map,
        List.length_range]
      have hle : i ≤ 6 * m := by
        simp only [List.length_reverse, List.length_map, List.length_range] at h1
        omega
      have hcast : ((6 * m + 1 - 1 - i : ℕ) : ℚ) = 6 * (m : ℚ) - (i : ℚ) := by
        rw [Nat.cast_sub (by omega), Nat.cast_sub (by omega)]
        push_cast
        ring
      rw [hcast]
      ring

/-- Claim C7, witness: at width 10 the kernel has the odd length 7. -/
theorem claim_C7_kernel_witness :
    1 ≤ 1 ∧ (gaussian (10 * ((1 : ℕ) : ℚ))).length = 6 * 1 + 1 ∧
    Odd ((gaussian (10 * ((1 : ℕ) : ℚ))).length) :=
  ⟨by decide, (claim_C7_kernel 1 (by decide)).2.1,
    (claim_C7_kernel 1 (by decide)).2.2.1⟩

/-- Claim C8: after any `apply_potential` call on a battery whose curve has at
least two cells, the stored curve is the freshly computed one, the stored
`ocp` is that curve's index-1 value, the stored `soc` is its sum, and the
call returns the pair of the new `ocp` and the difference between the new and
the prior `soc` — so `soc` and `ocp` are recomputed from the curve on every
update, never retained independently. -/
theorem claim_C8_apply_potential (b : DiffusionBattery) (p : ℝ)
    (hb : 2 ≤ b.charge_curve.length) :
    (apply_potential b p).1.charge_curve =
      compute_charge_curve b.cathode_width p b.charge_curve ∧
    (apply_potential b p).1.ocp =
      (compute_charge_curve b.cathode_width p b.charge_curve).getD 1 0 ∧
    (apply_potential b p).1.soc =
      (compute_charge_curve b.cathode_width p b.charge_curve).sum ∧
    (apply_potential b p).2.1 = (apply_potential b p).1.ocp ∧
    (apply_potential b p).2.2 = (apply_potential b p).1.soc - b.soc :=
  ⟨rfl, rfl, rfl, rfl, rfl⟩

/-- Claim C8, witness: the invariants at the concrete battery with curve
`[0, 1]` and width 1. -/
theorem claim_C8_witness :
    2 ≤ (DiffusionBattery.mk 0 0 [0, 1] 1).charge_curve.length ∧
    (apply_potential (DiffusionBattery.mk 0 0 [0, 1] 1) 0).1.ocp =
      (compute_charge_curve 1 0 [0, 1]).getD 1 0 ∧
    (apply_potential (DiffusionBattery.mk 0 0 [0, 1] 1) 0).2.2 =
      (apply_potential (DiffusionBattery.mk 0 0 [0, 1] 1) 0).1.soc -
        (DiffusionBattery.mk 0 0 [0, 1] 1).soc :=
  ⟨by simp, (claim_C8_apply_potential (DiffusionBattery.mk 0 0 [0, 1] 1) 0
      (by simp)).2.1,
    (claim_C8_apply_potential (DiffusionBattery.mk 0 0 [0, 1] 1) 0
      (by simp)).2.2.2.2⟩

/-- Claim C9: the equality checked by the `assert` in `guess_drive_pot` holds
at the point where the battery's drivers invoke the solver.  Both drivers
pass `drive_pot = charge_curve[0]`, and then the closure's copy of the curve
with index 0 overwritten by `drive_pot` is the curve itself, so the closure
(`get_calc_current` / `get_calc_ocp`) reproduces the direct observation
(`compute_current` / `compute_ocp`) exactly and the assertion-failure branch
cannot be taken. -/
theorem claim_C9_assert (W : ℚ) (c : List ℝ) (hc : 1 ≤ c.length) :
    get_calc_current W c (c.getD 0 0) = compute_current W (c.getD 0 0) c ∧
    get_calc_ocp W c (c.getD 0 0) = compute_ocp W (c.getD 0 0) c := by
  constructor
  · simp only [get_calc_current, set_getD_self]
  · simp only [get_calc_ocp, set_getD_self]

/-- Claim C9, witness: the assert equality at width 1 and curve `[0, 1]`. -/
theorem claim_C9_witness :
    1 ≤ ([0, 1] : List ℝ).length ∧
    get_calc_current 1 [0, 1] (([0, 1] : List ℝ).getD 0 0) =
      compute_current 1 (([0, 1] : List ℝ).getD 0 0) [0, 1] :=
  ⟨by simp, (claim_C9_assert 1 [0, 1] (by simp)).1⟩

/-- Claim C10: whenever the configured thresholds satisfy
`ChargeCV > DischargeCV` (as in the shipped config, 4 > 0), every external
call of `advance` terminates within the recursion bound of five invocations
(one plus at most four free phase changes: a chain of five transitions would
need the same potential to be both at least `ChargeCV` and at most
`DischargeCV`), and the global timestep counter increases by exactly one per
external call with `increment_timesteps = true`. -/
theorem claim_C10_termination (cfg : Config) (d1 d2 : ℚ → ℚ) (s : ProgState)
    (pot curr : ℚ) (h : cfg.discharge_cv < cfg.charge_cv) :
    (advanceAux cfg d1 d2 5 s pot curr true).isSome = true ∧
    ((advanceAux cfg d1 d2 5 s pot curr true).getD s).timestep = s.timestep + 1 := by
  obtain ⟨t, k, st, dr⟩ := s
  cases st <;> simp only [advanceAux] <;> split_ifs <;>
    first
      | (exfalso; first | assumption | linarith)
      | simp

/-- Claim C10, witness: with the shipped config the first call from the
initial state terminates and advances the timestep from 1 to 2. -/
theorem claim_C10_witness :
    shippedConfig.discharge_cv < shippedConfig.charge_cv ∧
    (advanceAux shippedConfig (fun _ => 0) (fun _ => 0) 5 initProgState 0 0
        true).isSome = true ∧
    ((advanceAux shippedConfig (fun _ => 0) (fun _ => 0) 5 initProgState 0 0
        true).getD initProgState).timestep = initProgState.timestep + 1 :=
  ⟨by rw [shippedConfig]; norm_num,
    (claim_C10_termination shippedConfig (fun _ => 0) (fun _ => 0) initProgState 0 0
      (by rw [shippedConfig]; norm_num)).1,
    (claim_C10_termination shippedConfig (fun _ => 0) (fun _ => 0) initProgState 0 0
      (by rw [shippedConfig]; norm_num)).2⟩
